import Mathlib

/-!
Verification of the rust-test-harness core (`src/lib.rs`) against its
natural-language specification.

The Rust code is shallowly embedded: durations become natural numbers
(milliseconds), `TestError` / `TestStatus` / `TestConfig` mirror the Rust
enums and structs, user-supplied closures (test bodies and hooks) become
pure functions from a per-test context to an outcome together with the
mutated context, and the wall-clock running time of a test body is an
explicit field.  Panic capture (`catch_unwind`) is modelled by a third
`panic` constructor in the outcome type.  The per-test context
(`TestContext.data` restricted to the `String`-valued entries that the
engine actually copies) is an association list.
-/

/-- Durations (`std::time::Duration`) modelled as natural-number milliseconds. -/
abbrev Duration := Nat

/-- Mirror of `enum TestError` in `src/lib.rs` (`Message`, `Panicked`, `Timeout`). -/
inductive TestError where
  | Message (msg : String)
  | Panicked (msg : String)
  | Timeout (duration : Duration)
deriving Repr, DecidableEq

/-- Mirror of `enum TestStatus` in `src/lib.rs`. -/
inductive TestStatus where
  | Pending
  | Running
  | Passed
  | Failed (e : TestError)
  | Skipped
deriving Repr, DecidableEq

/-- Mirror of `struct TestCase` (name, tags, optional timeout, status); the
boxed test closure is carried separately in `TestSpec`. -/
structure TestCase where
  name : String
  tags : List String
  timeout : Option Duration
  status : TestStatus
deriving Repr, DecidableEq

/-- Mirror of `enum TimeoutStrategy` (`Simple`, `Aggressive`, `Graceful(Duration)`). -/
inductive TimeoutStrategy where
  | Simple
  | Aggressive
  | Graceful (cleanup : Duration)
deriving Repr, DecidableEq

/-- Mirror of `impl Default for TimeoutStrategy` (`TimeoutStrategy::Aggressive`). -/
def TimeoutStrategy.defaultStrategy : TimeoutStrategy := TimeoutStrategy.Aggressive

/-- Mirror of `struct TimeoutConfig`. -/
structure TimeoutConfig where
  strategy : TimeoutStrategy
deriving Repr, DecidableEq

/-- Mirror of `impl Default for TimeoutConfig`. -/
def TimeoutConfig.defaultConfig : TimeoutConfig :=
  { strategy := TimeoutStrategy.defaultStrategy }

/-- Mirror of `struct TestConfig` in `src/lib.rs`. -/
structure TestConfig where
  filter : Option String
  skip_tags : List String
  max_concurrency : Option Nat
  shuffle_seed : Option Nat
  color : Option Bool
  html_report : Option String
  skip_hooks : Option Bool
  timeout_config : TimeoutConfig

/-- Mirror of `str::contains` on the character list of a pattern and a haystack:
`charsStartWith pat hay` is true when `pat` is an initial segment of `hay`. -/
def charsStartWith : List Char → List Char → Bool
  | [], _ => true
  | _ :: _, [] => false
  | p :: ps, h :: hs => p == h && charsStartWith ps hs

/-- Substring search: does `pat` occur contiguously anywhere in the haystack? -/
def charsContain (pat : List Char) : List Char → Bool
  | [] => pat.isEmpty
  | c :: rest => charsStartWith pat (c :: rest) || charsContain pat rest

/-- Mirror of Rust `haystack.contains(pattern)` for string slices. -/
def strContains (hay pat : String) : Bool :=
  charsContain pat.toList hay.toList

/-- Name of the test at index `idx` (`tests[idx].name`; total via `get?`). -/
def testNameAt (tests : List TestCase) (idx : Nat) : String :=
  ((tests.get? idx).map TestCase.name).getD ""

/-- Tags of the test at index `idx` (`tests[idx].tags`; total via `get?`). -/
def testTagsAt (tests : List TestCase) (idx : Nat) : List String :=
  ((tests.get? idx).map TestCase.tags).getD []

/-- One step of the seeded pseudo-random generator in
`filter_and_sort_test_indices`:
`rng_state.wrapping_mul(1103515245).wrapping_add(12345)` on `u64`. -/
def lcgNext (s : Nat) : Nat := (s * 1103515245 + 12345) % 2 ^ 64

/-- Mirror of `indices.swap(i, j)` on a list, total via `get?`. -/
def listSwap (l : List Nat) (i j : Nat) : List Nat :=
  match l.get? i, l.get? j with
  | some a, some b => (l.set i b).set j a
  | _, _ => l

/-- The Fisher-Yates loop of `filter_and_sort_test_indices`:
`for i in (1..indices.len()).rev()` with `j = rng_state % (i + 1)`.
The first argument is the current index `i`; the loop body runs for
`i = len - 1, ..., 1` and stops at `0`. -/
def fyLoop : Nat → Nat → List Nat → List Nat
  | 0, _, l => l
  | i + 1, state, l =>
    let s := lcgNext state
    let j := s % (i + 2)
    fyLoop i s (listSwap l (i + 1) j)

/-- The filtering stages of `filter_and_sort_test_indices` (lines 495-509):
take `0..tests.len()`, retain by name-substring filter, then retain indices
carrying none of the skip tags. -/
def filteredIndices (tests : List TestCase) (config : TestConfig) : List Nat :=
  let indices := List.range tests.length
  let indices :=
    match config.filter with
    | some f => indices.filter (fun idx => strContains (testNameAt tests idx) f)
    | none => indices
  if config.skip_tags.isEmpty then indices
  else indices.filter
    (fun idx => !(config.skip_tags.any (fun tag => (testTagsAt tests idx).contains tag)))

/-- Mirror of `filter_and_sort_test_indices` (lines 495-531).  The seed is
turned into the initial generator state by hashing it with
`std::collections::hash_map::DefaultHasher`; that hash function lives in the
Rust standard library, outside this repository, so it is abstracted as the
parameter `hasher` (the specification only requires it to be a fixed
deterministic 64-bit function of the seed, which any value of `hasher` is). -/
def filterAndSortTestIndices (hasher : Nat → Nat) (tests : List TestCase)
    (config : TestConfig) : List Nat :=
  let indices := filteredIndices tests config
  match config.shuffle_seed with
  | some seed => fyLoop (indices.length - 1) (hasher seed) indices
  | none => indices

/-- Per-test context data: the `String`-valued entries of `TestContext.data`
(the only entries the engine ever copies between contexts), as an
association list. -/
abbrev Ctx := List (String × String)

/-- Mirror of `TestContext::set_data` (HashMap insert: replace any previous
binding for the key). -/
def ctxSet (ctx : Ctx) (k v : String) : Ctx :=
  (k, v) :: ctx.filter (fun p => !(p.1 == k))

/-- Mirror of `TestContext::get_data` for string values. -/
def ctxGet (ctx : Ctx) (k : String) : Option String :=
  (ctx.find? (fun p => p.1 == k)).map Prod.snd

/-- Result of invoking a user closure under `catch_unwind`: normal success,
a returned `TestError`, or a captured panic carrying its message. -/
inductive CallOutcome where
  | ok
  | err (e : TestError)
  | panic (msg : String)
deriving Repr, DecidableEq

/-- A registered hook (`HookFn`): the engine observes it as a function from
the context it is handed to an outcome and the mutated context. -/
abbrev Hook := Ctx → CallOutcome × Ctx

/-- A test body together with its wall-clock running time (the time model
needed by the timeout strategies). -/
structure BodySpec where
  run : Ctx → CallOutcome × Ctx
  dur : Duration

/-- A registered test: its `TestCase` record plus its body. -/
structure TestSpec where
  case : TestCase
  body : BodySpec

/-- Mirror of the `before_all` loop in `run_tests_with_config` (lines
329-364): run each hook under panic capture on the shared context; the first
returned error or panic aborts with that failure. -/
def runBeforeAllHooks : List Hook → Ctx → Except TestError Ctx
  | [], ctx => Except.ok ctx
  | h :: rest, ctx =>
    match h ctx with
    | (CallOutcome.ok, ctx2) => runBeforeAllHooks rest ctx2
    | (CallOutcome.err e, _) => Except.error e
    | (CallOutcome.panic m, _) => Except.error (TestError.Panicked m)

/-- Mirror of the `before_each` loop in `run_single_test_by_index` (lines
700-736): run hooks in order under panic capture, recording the indices of
the hooks that were invoked; stop at the first returned error or panic. -/
def runBeforeEachHooks : List Hook → Ctx → Nat → List Nat × Except TestError Ctx
  | [], ctx, _ => ([], Except.ok ctx)
  | h :: rest, ctx, i =>
    match h ctx with
    | (CallOutcome.ok, ctx2) =>
      let r := runBeforeEachHooks rest ctx2 (i + 1)
      (i :: r.1, r.2)
    | (CallOutcome.err e, _) => ([i], Except.error e)
    | (CallOutcome.panic m, _) => ([i], Except.error (TestError.Panicked m))

/-- Mirror of the `after_each` loop (lines 747-779): every hook runs; errors
and panics are logged and ignored, the context keeps the hook's mutations. -/
def runAfterEachHooks : List Hook → Ctx → Ctx
  | [], ctx => ctx
  | h :: rest, ctx => runAfterEachHooks rest (h ctx).2

/-- Mirror of `run_test` (lines 950-964): run the body under panic capture
on the given context; a panic maps to `TestError::Panicked`. -/
def runTest (body : BodySpec) (ctx : Ctx) : Except TestError Unit × Ctx :=
  match body.run ctx with
  | (CallOutcome.ok, ctx2) => (Except.ok (), ctx2)
  | (CallOutcome.err e, ctx2) => (Except.error e, ctx2)
  | (CallOutcome.panic m, ctx2) => (Except.error (TestError.Panicked m), ctx2)

/-- Total time the parent waits on the result channel before giving up, per
strategy (lines 995-1019): `Simple` and `Aggressive` wait the full limit;
`Graceful(cleanup)` waits `timeout.saturating_sub(cleanup)` and then, on a
miss, an additional `cleanup`. -/
def waitWindow : TimeoutStrategy → Duration → Duration
  | TimeoutStrategy.Simple, timeout => timeout
  | TimeoutStrategy.Aggressive, timeout => timeout
  | TimeoutStrategy.Graceful cleanup, timeout => (timeout - cleanup) + cleanup

/-- Observable result of `run_test_with_timeout_enhanced` for one body:
the returned test result, the caller context after any copy-back, the
context the body was invoked with inside the worker thread, whether the
engine observed the body complete, and the instant the engine returned. -/
structure TimeoutRun where
  result : Except TestError Unit
  ctx : Ctx
  bodyStartCtx : Ctx
  finished : Bool
  elapsed : Duration

/-- Mirror of `run_test_with_timeout_enhanced` (lines 974-1075).  The body is
spawned in a worker thread that is handed a fresh `TestContext::new()`; the
parent waits on the channel for `waitWindow` time.  If the result arrives in
time (`body.dur ≤ window`), a successful body has its string data copied back
into the caller's context and errors/panics convert as in `run_test`;
otherwise the parent returns `Err(Timeout(timeout))` at the end of the
window without waiting for the body. -/
def runTestWithTimeoutEnhanced (body : BodySpec) (ctx : Ctx) (timeout : Duration)
    (config : TimeoutConfig) : TimeoutRun :=
  let workerCtx : Ctx := []
  let res := body.run workerCtx
  let window := waitWindow config.strategy timeout
  if body.dur ≤ window then
    match res with
    | (CallOutcome.ok, wctx) =>
      { result := Except.ok ()
        ctx := wctx.foldl (fun c kv => ctxSet c kv.1 kv.2) ctx
        bodyStartCtx := workerCtx
        finished := true
        elapsed := body.dur }
    | (CallOutcome.err e, _) =>
      { result := Except.error e, ctx := ctx, bodyStartCtx := workerCtx
        finished := true, elapsed := body.dur }
    | (CallOutcome.panic m, _) =>
      { result := Except.error (TestError.Panicked m), ctx := ctx
        bodyStartCtx := workerCtx, finished := true, elapsed := body.dur }
  else
    { result := Except.error (TestError.Timeout timeout), ctx := ctx
      bodyStartCtx := workerCtx, finished := false, elapsed := window }

/-- Mirror of `run_test_with_timeout` (lines 966-972): it delegates to the
enhanced runner with `TimeoutConfig::default()` - the strategy carried by the
run configuration is not consulted. -/
def runTestWithTimeout (body : BodySpec) (ctx : Ctx) (timeout : Duration) : TimeoutRun :=
  runTestWithTimeoutEnhanced body ctx timeout TimeoutConfig.defaultConfig

/-- Mirror of `config.skip_hooks.unwrap_or(false)`. -/
def configSkipsHooks (config : TestConfig) : Bool :=
  config.skip_hooks.getD false

/-- The name-filter check at the top of `run_single_test_by_index` (lines
665-672): skipped when a filter is present and the name does not contain it. -/
def skippedByFilter (config : TestConfig) (t : TestCase) : Bool :=
  match config.filter with
  | some f => !strContains t.name f
  | none => false

/-- The tag check of `run_single_test_by_index` (lines 675-683). -/
def skippedByTags (config : TestConfig) (t : TestCase) : Bool :=
  !config.skip_tags.isEmpty &&
    config.skip_tags.any (fun tag => t.tags.contains tag)

/-- The per-test context as first populated in `run_single_test_by_index`
(lines 688-698): a fresh context into which every entry of the global map is
copied with `set_data`. -/
def initialTestCtx (globalMap : List (String × String)) : Ctx :=
  globalMap.foldl (fun c kv => ctxSet c kv.1 kv.2) []

/-- Observable result of `run_single_test_by_index` for one test: the final
`TestCase`, the context the body was invoked with (`none` when the body never
ran), the indices of the `before_each` hooks that were invoked, the number of
`after_each` hooks that were invoked, and the increments applied to the
`overall_failed` / `overall_skipped` counters. -/
structure SingleRun where
  case : TestCase
  bodyCtx : Option Ctx
  beforeEachRan : List Nat
  afterEachInvoked : Nat
  failedInc : Nat
  skippedInc : Nat

/-- Mirror of `run_single_test_by_index` (lines 649-799): filter and tag
checks, global-map copy, `before_each` phase (an error or panic marks the
test `Failed` and returns at once), the body (through the timeout runner when
the test carries a limit, directly otherwise), the `after_each` phase, and
the final status. -/
def runSingleTest (spec : TestSpec) (beHooks aeHooks : List Hook)
    (config : TestConfig) (globalMap : List (String × String)) : SingleRun :=
  let t := spec.case
  if skippedByFilter config t then
    { case := { t with status := TestStatus.Skipped }, bodyCtx := none
      beforeEachRan := [], afterEachInvoked := 0, failedInc := 0, skippedInc := 1 }
  else if skippedByTags config t then
    { case := { t with status := TestStatus.Skipped }, bodyCtx := none
      beforeEachRan := [], afterEachInvoked := 0, failedInc := 0, skippedInc := 1 }
  else
    let ctx0 := initialTestCtx globalMap
    let bePhase :=
      if configSkipsHooks config then ([], Except.ok ctx0)
      else runBeforeEachHooks beHooks ctx0 0
    match bePhase with
    | (beRan, Except.error e) =>
      { case := { t with status := TestStatus.Failed e }, bodyCtx := none
        beforeEachRan := beRan, afterEachInvoked := 0, failedInc := 1, skippedInc := 0 }
    | (beRan, Except.ok ctx1) =>
      let bodyRun :=
        match t.timeout with
        | some l =>
          let r := runTestWithTimeout spec.body ctx1 l
          (r.result, r.ctx, r.bodyStartCtx)
        | none =>
          let r := runTest spec.body ctx1
          (r.1, r.2, ctx1)
      let aeCount := if configSkipsHooks config then 0 else aeHooks.length
      let _ctx3 :=
        if configSkipsHooks config then bodyRun.2.1
        else runAfterEachHooks aeHooks bodyRun.2.1
      match bodyRun.1 with
      | Except.ok _ =>
        { case := { t with status := TestStatus.Passed }, bodyCtx := some bodyRun.2.2
          beforeEachRan := beRan, afterEachInvoked := aeCount
          failedInc := 0, skippedInc := 0 }
      | Except.error e =>
        { case := { t with status := TestStatus.Failed e }, bodyCtx := some bodyRun.2.2
          beforeEachRan := beRan, afterEachInvoked := aeCount
          failedInc := 1, skippedInc := 0 }

/-- Mirror of the summary count at line 455:
`tests.iter().filter(|t| matches!(t.status, TestStatus::Failed(_))).count()`. -/
def countFailed (l : List TestCase) : Nat :=
  (l.filter (fun t =>
    match t.status with
    | TestStatus.Failed _ => true
    | _ => false)).length

/-- Mirror of the summary count at line 456 for `TestStatus::Skipped`. -/
def countSkipped (l : List TestCase) : Nat :=
  (l.filter (fun t =>
    match t.status with
    | TestStatus.Skipped => true
    | _ => false)).length

/-- The sequential dispatch loop `run_tests_sequential_by_index` (lines
625-647): for each retained index in order, run the test and write its final
`TestCase` back in place. -/
def dispatchStep (beHooks aeHooks : List Hook) (config : TestConfig)
    (globalMap : List (String × String)) (acc : List TestSpec) (idx : Nat) :
    List TestSpec :=
  match acc.get? idx with
  | some sp =>
    acc.set idx { sp with case := (runSingleTest sp beHooks aeHooks config globalMap).case }
  | none => acc

/-- The fold over the retained indices performed by
`run_tests_sequential_by_index`. -/
def dispatchSequential (specs : List TestSpec) (indices : List Nat)
    (beHooks aeHooks : List Hook) (config : TestConfig)
    (globalMap : List (String × String)) : List TestSpec :=
  indices.foldl (dispatchStep beHooks aeHooks config globalMap) specs

/-- The `before_all` phase of `run_tests_with_config` (lines 329-378): the
hooks run on a fresh shared context only when hooks are not suppressed and
the list is non-empty; on success the shared context's string entries become
the global map handed to every test (the global map starts empty in a fresh
process, so the skipped case yields the empty map). -/
def beforeAllPhase (hooks : List Hook) (config : TestConfig) : Except TestError Ctx :=
  if !configSkipsHooks config && !hooks.isEmpty then runBeforeAllHooks hooks []
  else Except.ok []

/-- Observable result of one `run_tests_with_config` call: the returned exit
code, the final test list, how many tests were dispatched to the single-test
runner, how many `after_all` hooks were invoked, and whether the HTML-report
generation step was reached with a configured path. -/
structure RunResult where
  exitCode : Int
  finalCases : List TestCase
  dispatched : Nat
  afterAllInvoked : Nat
  htmlGenerated : Bool

/-- Mirror of `run_tests_with_config` (lines 310-491), sequential dispatch:
return `0` when no tests are registered; run the `before_all` phase and
return `1` at once when it fails; filter and order the indices and return `0`
when none remain; dispatch every retained index; run the `after_all` hooks
(failures ignored); reach the HTML step; return `1` exactly when the count of
`Failed` statuses is positive, else `0`. -/
def runTestsWithConfig (hasher : Nat → Nat) (specs : List TestSpec)
    (beforeAllHooks beHooks aeHooks afterAllHooks : List Hook)
    (config : TestConfig) : RunResult :=
  if specs.isEmpty then
    { exitCode := 0, finalCases := [], dispatched := 0
      afterAllInvoked := 0, htmlGenerated := false }
  else
    match beforeAllPhase beforeAllHooks config with
    | Except.error _ =>
      { exitCode := 1, finalCases := specs.map TestSpec.case, dispatched := 0
        afterAllInvoked := 0, htmlGenerated := false }
    | Except.ok sharedCtx =>
      let globalMap := sharedCtx
      let indices := filterAndSortTestIndices hasher (specs.map TestSpec.case) config
      if indices.isEmpty then
        { exitCode := 0, finalCases := specs.map TestSpec.case, dispatched := 0
          afterAllInvoked := 0, htmlGenerated := false }
      else
        let finalSpecs := dispatchSequential specs indices beHooks aeHooks config globalMap
        let failed := countFailed (finalSpecs.map TestSpec.case)
        { exitCode := if failed > 0 then 1 else 0
          finalCases := finalSpecs.map TestSpec.case
          dispatched := indices.length
          afterAllInvoked :=
            if !configSkipsHooks config && !afterAllHooks.isEmpty
            then afterAllHooks.length else 0
          htmlGenerated := config.html_report.isSome }

/-- Mirror of `struct ContainerConfig` (the fields the port logic reads). -/
structure ContainerConfig where
  image : String
  ports : List (Nat × Nat)
  auto_ports : List Nat
  env : List (String × String)
  auto_cleanup : Bool
deriving Repr, DecidableEq

/-- The mock auto-port rule of `ContainerConfig::start` without the docker
feature (line 1867): `10000 + (container_port % 1000)`, a deterministic
function of the container port alone. -/
def mockAutoHostPort (containerPort : Nat) : Nat :=
  10000 + containerPort % 1000

/-- The auto-resolved `(host, container)` pairs one mock `start` call
produces (lines 1863-1869). -/
def mockAutoAssignments (cfg : ContainerConfig) : List (Nat × Nat) :=
  cfg.auto_ports.map (fun p => (mockAutoHostPort p, p))

/-- The full `port_mappings` list of the `ContainerInfo` a mock `start`
returns (lines 1862-1870): manual pairs first, auto pairs appended. -/
def mockStartPortMappings (cfg : ContainerConfig) : List (Nat × Nat) :=
  cfg.ports ++ mockAutoAssignments cfg

/-- A run configuration with everything off: no filter, no skip tags, no
concurrency bound, no seed, no report, hooks enabled, default timeouts. -/
def emptyConfig : TestConfig :=
  { filter := none, skip_tags := [], max_concurrency := none, shuffle_seed := none
    color := some false, html_report := none, skip_hooks := none
    timeout_config := TimeoutConfig.defaultConfig }

/-- A body that immediately succeeds without touching its context. -/
def okBody : BodySpec := { run := fun c => (CallOutcome.ok, c), dur := 0 }

/-- A registered test with the given name, no tags and no time limit. -/
def okTestSpec (n : String) : TestSpec :=
  { case := { name := n, tags := [], timeout := none, status := TestStatus.Pending }
    body := okBody }

/-- A hook that fails with the user error message `boom`. -/
def failingHook : Hook := fun c => (CallOutcome.err (TestError.Message "boom"), c)

/-- A hook that succeeds without touching the context. -/
def okHook : Hook := fun c => (CallOutcome.ok, c)

/-- A hook that publishes `url = x` into the context it is handed, as a
`before_all` hook would publish into the shared context. -/
def setUrlHook : Hook := fun c => (CallOutcome.ok, ctxSet c "url" "x")

/-- A body that succeeds but takes 10 time units of wall clock. -/
def slowBody : BodySpec := { run := fun c => (CallOutcome.ok, c), dur := 10 }

/-- A named list of three untimed, untagged test cases. -/
def threeTests : List TestCase :=
  [(okTestSpec "t0").case, (okTestSpec "t1").case, (okTestSpec "t2").case]

/-- A run configuration that only turns on the deterministic shuffle. -/
def seedConfig : TestConfig := { emptyConfig with shuffle_seed := some 12345 }

/-- The same configuration as `seedConfig` up to the three fields the
ordering depends on (filter, skip tags, seed); `color` differs. -/
def seedConfigVariant : TestConfig := { seedConfig with color := some true }

/-- A body that succeeds after 8 time units. -/
def c6Body : BodySpec := { run := fun c => (CallOutcome.ok, c), dur := 8 }

/-- A test carrying a 5-unit time limit whose body is `c6Body`. -/
def c6Spec : TestSpec :=
  { case := { name := "t", tags := [], timeout := some 5, status := TestStatus.Pending }
    body := c6Body }

/-- A run configuration selecting the `Graceful(10)` timeout strategy. -/
def gracefulConfig : TestConfig :=
  { emptyConfig with timeout_config := { strategy := TimeoutStrategy.Graceful 10 } }

/-- Two container configurations whose auto-port lists overlap on
container port 443. -/
def c9CfgA : ContainerConfig :=
  { image := "svc-a", ports := [], auto_ports := [443], env := [], auto_cleanup := true }

/-- Second start-call configuration sharing auto port 443 with `c9CfgA`. -/
def c9CfgB : ContainerConfig :=
  { image := "svc-b", ports := [(8080, 80)], auto_ports := [443, 9090], env := []
    auto_cleanup := true }

/-- A test tagged `slow` with a trivial body. -/
def slowTagSpec : TestSpec :=
  { case := { name := "a", tags := ["slow"], timeout := none, status := TestStatus.Pending }
    body := okBody }

/-- A run configuration that skips the `slow` tag. -/
def skipSlowConfig : TestConfig := { emptyConfig with skip_tags := ["slow"] }

/-- A test named `reads` with a 5-unit time limit and a trivial body. -/
def timedOkSpec : TestSpec :=
  { case := { name := "reads", tags := [], timeout := some 5, status := TestStatus.Pending }
    body := okBody }

/-- A run configuration whose name filter matches no registered test and
which requests an HTML report. -/
def zzzHtmlConfig : TestConfig :=
  { emptyConfig with filter := some "zzz", html_report := some "report.html" }

theorem listSwap_perm (l : List Nat) (i j : Nat) : (listSwap l i j).Perm l := by
  unfold listSwap
  cases hi : l.get? i with
  | none => exact List.Perm.refl l
  | some a =>
    cases hj : l.get? j with
    | none => exact List.Perm.refl l
    | some b =>
      rw [List.get?_eq_getElem?] at hi hj
      obtain ⟨hi', ha⟩ := List.getElem?_eq_some.mp hi
      obtain ⟨hj', hb⟩ := List.getElem?_eq_some.mp hj
      apply List.perm_iff_count.mpr
      intro x
      have hlen : j < (l.set i b).length := by simpa using hj'
      have hmid : (l.set i b)[j] = b := by
        by_cases hij : i = j
        · subst hij; simp [List.getElem_set_self]
        · rw [List.getElem_set_ne hij]; exact hb
      have h1 := List.count_set b x l i hi'
      have h2 := List.count_set a x (l.set i b) j hlen
      rw [hmid] at h2
      rw [ha] at h1
      have hmem : a ∈ l := by rw [← ha]; exact List.getElem_mem hi'
      have hbound : (if (a == x) = true then 1 else 0) ≤ l.count x := by
        by_cases hax : a = x
        · subst hax; simpa using List.count_pos_iff.mpr hmem
        · simp [hax]
      rw [h2, h1]
      by_cases hax : (a == x) = true <;> by_cases hbx : (b == x) = true <;>
        simp only [hax, hbx, if_true, if_false] at hbound ⊢ <;> omega

theorem fyLoop_succ_eq (state : Nat) (l : List Nat) (i : Nat) :
    fyLoop (i + 1) state l
      = fyLoop i (lcgNext state) (listSwap l (i + 1) (lcgNext state % (i + 2))) := rfl

theorem fyLoop_perm (i : Nat) : ∀ (state : Nat) (l : List Nat), (fyLoop i state l).Perm l := by
  induction i with
  | zero => intro state l; exact List.Perm.refl l
  | succ i ih =>
    intro state l
    rw [fyLoop_succ_eq]
    exact (ih (lcgNext state) (listSwap l (i + 1) (lcgNext state % (i + 2)))).trans
      (listSwap_perm l (i + 1) (lcgNext state % (i + 2)))

theorem filterAndSort_perm (hasher : Nat → Nat) (tests : List TestCase)
    (config : TestConfig) :
    (filterAndSortTestIndices hasher tests config).Perm (filteredIndices tests config) := by
  unfold filterAndSortTestIndices
  cases config.shuffle_seed with
  | none => exact List.Perm.refl _
  | some seed => exact fyLoop_perm _ _ _

theorem countFailed_eq_zero (l : List TestCase)
    (h : ∀ t ∈ l, t.status = TestStatus.Pending) : countFailed l = 0 := by
  unfold countFailed
  rw [List.length_eq_zero, List.filter_eq_nil]
  intro t ht
  rw [h t ht]
  simp

theorem ctxGet_ctxSet_self (c : Ctx) (k v : String) : ctxGet (ctxSet c k v) k = some v := by
  simp [ctxGet, ctxSet, List.find?_cons]

theorem find?_filter_other (c : Ctx) (k k2 : String) (h : k2 ≠ k) :
    (c.filter (fun p => !(p.1 == k))).find? (fun p => p.1 == k2)
      = c.find? (fun p => p.1 == k2) := by
  induction c with
  | nil => rfl
  | cons hd tl ih =>
    by_cases hk : hd.1 = k
    · have hpk : ¬((fun p => !(p.1 == k)) hd = true) := by simp [hk]
      have hp2 : ¬((fun p => (p.1 == k2)) hd = true) := by
        simp only [beq_iff_eq, hk]
        exact fun he => h he.symm
      rw [List.filter_cons_of_neg (p := fun (q : String × String) => !(q.1 == k)) hpk,
        List.find?_cons_of_neg (p := fun (q : String × String) => (q.1 == k2)) tl hp2, ih]
    · have hpk : ((fun p => !(p.1 == k)) hd = true) := by simp [hk]
      by_cases hx : hd.1 = k2
      · have hp2 : ((fun p => (p.1 == k2)) hd = true) := by simp [hx]
        rw [List.filter_cons_of_pos (p := fun (q : String × String) => !(q.1 == k)) hpk,
          List.find?_cons_of_pos (p := fun (q : String × String) => (q.1 == k2)) _ hp2,
          List.find?_cons_of_pos (p := fun (q : String × String) => (q.1 == k2)) tl hp2]
      · have hp2 : ¬((fun p => (p.1 == k2)) hd = true) := by simp [hx]
        rw [List.filter_cons_of_pos (p := fun (q : String × String) => !(q.1 == k)) hpk,
          List.find?_cons_of_neg (p := fun (q : String × String) => (q.1 == k2)) _ hp2,
          List.find?_cons_of_neg (p := fun (q : String × String) => (q.1 == k2)) tl hp2, ih]

theorem ctxGet_ctxSet_other (c : Ctx) (k k2 v : String) (h : k2 ≠ k) :
    ctxGet (ctxSet c k v) k2 = ctxGet c k2 := by
  have hk : (k == k2) = false := by
    simp; exact fun he => h he.symm
  simp [ctxGet, ctxSet, List.find?_cons, hk, find?_filter_other c k k2 h]

theorem ctxGet_copy_of_not_mem (gm : List (String × String)) (k : String)
    (h : k ∉ gm.map Prod.fst) :
    ∀ c : Ctx, ctxGet (gm.foldl (fun c kv => ctxSet c kv.1 kv.2) c) k = ctxGet c k := by
  induction gm with
  | nil => intro c; rfl
  | cons hd tl ih =>
    intro c
    simp only [List.map_cons, List.mem_cons, not_or] at h
    rw [List.foldl_cons, ih h.2, ctxGet_ctxSet_other c hd.1 k hd.2 h.1]

theorem ctxGet_copy_mem (gm : List (String × String))
    (hnd : (gm.map Prod.fst).Nodup) :
    ∀ c : Ctx, ∀ kv ∈ gm,
      ctxGet (gm.foldl (fun c kv => ctxSet c kv.1 kv.2) c) kv.1 = some kv.2 := by
  induction gm with
  | nil => simp
  | cons hd tl ih =>
    intro c kv hkv
    simp only [List.map_cons, List.nodup_cons] at hnd
    rcases List.mem_cons.mp hkv with rfl | hkv
    · rw [List.foldl_cons, ctxGet_copy_of_not_mem tl kv.1 hnd.1, ctxGet_ctxSet_self]
    · exact ih hnd.2 (ctxSet c hd.1 hd.2) kv hkv

theorem ctxGet_initialTestCtx (gm : List (String × String))
    (hnd : (gm.map Prod.fst).Nodup) :
    ∀ kv ∈ gm, ctxGet (initialTestCtx gm) kv.1 = some kv.2 :=
  ctxGet_copy_mem gm hnd []

theorem dispatchStep_get?_other (beH aeH : List Hook) (config : TestConfig)
    (gm : List (String × String)) (acc : List TestSpec) (idx i : Nat) (h : idx ≠ i) :
    (dispatchStep beH aeH config gm acc idx).get? i = acc.get? i := by
  unfold dispatchStep
  cases acc.get? idx with
  | none => rfl
  | some sp => exact List.get?_set_ne _ _ h

theorem dispatchSequential_get?_of_not_mem (indices : List Nat) :
    ∀ (specs : List TestSpec) (beH aeH : List Hook) (config : TestConfig)
      (gm : List (String × String)) (i : Nat), i ∉ indices →
      (dispatchSequential specs indices beH aeH config gm).get? i = specs.get? i := by
  induction indices with
  | nil => intro specs _ _ _ _ _ _; rfl
  | cons idx rest ih =>
    intro specs beH aeH config gm i h
    simp only [List.mem_cons, not_or] at h
    unfold dispatchSequential at *
    rw [List.foldl_cons, ih _ beH aeH config gm i h.2,
      dispatchStep_get?_other beH aeH config gm specs idx i (fun he => h.1 he.symm)]

theorem testNameAt_get (tests : List TestCase) (i : Nat) (hi : i < tests.length) :
    testNameAt tests i = (tests.get ⟨i, hi⟩).name := by
  simp [testNameAt, List.get?_eq_get hi, List.getElem?_eq_getElem hi]

theorem testTagsAt_get (tests : List TestCase) (i : Nat) (hi : i < tests.length) :
    testTagsAt tests i = (tests.get ⟨i, hi⟩).tags := by
  simp [testTagsAt, List.get?_eq_get hi, List.getElem?_eq_getElem hi]

theorem not_mem_filteredIndices (tests : List TestCase) (config : TestConfig) (i : Nat)
    (hi : i < tests.length)
    (h : skippedByFilter config (tests.get ⟨i, hi⟩) = true
        ∨ skippedByTags config (tests.get ⟨i, hi⟩) = true) :
    i ∉ filteredIndices tests config := by
  intro hmem
  unfold filteredIndices at hmem
  rcases h with h | h
  · unfold skippedByFilter at h
    cases hf : config.filter with
    | none => rw [hf] at h; simp at h
    | some f =>
      rw [hf] at h hmem
      simp only [Bool.not_eq_true'] at h
      have hmem1 : i ∈ (List.range tests.length).filter
          (fun idx => strContains (testNameAt tests idx) f) := by
        cases hst : config.skip_tags.isEmpty with
        | true => simpa [hst] using hmem
        | false =>
          simp only [hst, Bool.false_eq_true, if_false] at hmem
          exact (List.mem_filter.mp hmem).1
      have h2 := (List.mem_filter.mp hmem1).2
      rw [testNameAt_get tests i hi, h] at h2
      exact Bool.false_ne_true h2
  · unfold skippedByTags at h
    simp only [Bool.and_eq_true, Bool.not_eq_true'] at h
    obtain ⟨hne, hany⟩ := h
    rw [if_neg (by simp [hne])] at hmem
    have h2 := (List.mem_filter.mp hmem).2
    rw [testTagsAt_get tests i hi] at h2
    rw [hany] at h2
    exact Bool.false_ne_true (by simpa using h2)

theorem not_mem_filterAndSort (hasher : Nat → Nat) (tests : List TestCase)
    (config : TestConfig) (i : Nat) (hi : i < tests.length)
    (h : skippedByFilter config (tests.get ⟨i, hi⟩) = true
        ∨ skippedByTags config (tests.get ⟨i, hi⟩) = true) :
    i ∉ filterAndSortTestIndices hasher tests config := fun hm =>
  not_mem_filteredIndices tests config i hi h
    ((filterAndSort_perm hasher tests config).mem_iff.mp hm)

/-- C8: the execution order produced by `filter_and_sort_test_indices` is a
permutation of the filtered index list; the filtered list is the registration
order restricted to the retained indices (a sublist of `0..N`); when no
shuffle seed is present the order is exactly that filtered list; and two runs
over the same test list agreeing on filter, skip tags and seed produce the
same order. -/
theorem c8_shuffle_order (hasher : Nat → Nat) (tests : List TestCase)
    (config : TestConfig) :
    (filterAndSortTestIndices hasher tests config).Perm (filteredIndices tests config)
    ∧ (filteredIndices tests config).Sublist (List.range tests.length)
    ∧ (config.shuffle_seed = none →
        filterAndSortTestIndices hasher tests config = filteredIndices tests config)
    ∧ (∀ other : TestConfig, config.filter = other.filter →
        config.skip_tags = other.skip_tags →
        config.shuffle_seed = other.shuffle_seed →
        filterAndSortTestIndices hasher tests config
          = filterAndSortTestIndices hasher tests other) := by
  refine ⟨filterAndSort_perm hasher tests config, ?_, ?_, ?_⟩
  · cases hf : config.filter with
    | none =>
      cases hst : config.skip_tags.isEmpty with
      | true => simp [filteredIndices, hf, hst]
      | false =>
        simp only [filteredIndices, hf, hst, Bool.false_eq_true, if_false]
        exact List.filter_sublist _
    | some f =>
      cases hst : config.skip_tags.isEmpty with
      | true =>
        simp only [filteredIndices, hf, hst, if_true]
        exact List.filter_sublist _
      | false =>
        simp only [filteredIndices, hf, hst, Bool.false_eq_true, if_false]
        exact (List.filter_sublist _).trans (List.filter_sublist _)
  · intro h
    simp [filterAndSortTestIndices, h]
  · intro other h1 h2 h3
    simp only [filterAndSortTestIndices, filteredIndices, h1, h2, h3]

/-- C8 witness: with seed 12345 two configurations agreeing on filter, skip
tags and seed order the three registered tests identically, and with no seed
the order equals the filtered list. -/
theorem c8_witness :
    filterAndSortTestIndices id threeTests seedConfig
      = filterAndSortTestIndices id threeTests seedConfigVariant
    ∧ filterAndSortTestIndices id threeTests emptyConfig
      = filteredIndices threeTests emptyConfig :=
  ⟨(c8_shuffle_order id threeTests seedConfig).2.2.2 seedConfigVariant rfl rfl rfl,
   (c8_shuffle_order id threeTests emptyConfig).2.2.1 rfl⟩

/-- C5 counterexample: under the `Simple` strategy a successful body whose
wall clock (10) exceeds the limit (5) is reported as `Timeout(5)` at time 5
with the engine never observing the body finish - the code does not run the
body to completion in the calling worker and does not wait for it. -/
theorem c5_counterexample :
    (runTestWithTimeoutEnhanced slowBody [] 5
        { strategy := TimeoutStrategy.Simple }).finished = false
    ∧ (runTestWithTimeoutEnhanced slowBody [] 5
        { strategy := TimeoutStrategy.Simple }).elapsed = 5
    ∧ (runTestWithTimeoutEnhanced slowBody [] 5
        { strategy := TimeoutStrategy.Simple }).result
      = Except.error (TestError.Timeout 5) :=
  ⟨rfl, rfl, rfl⟩

/-- C5 (amended): the `Simple` strategy behaves exactly like `Aggressive`:
the body runs in a spawned worker, and when its duration exceeds the limit
the engine reports `Timeout(limit)` at the deadline without observing the
body complete; only when the body finishes within the limit does the engine
wait for it. -/
theorem c5_simple_strategy_amended (body : BodySpec) (ctx : Ctx) (l : Duration) :
    runTestWithTimeoutEnhanced body ctx l { strategy := TimeoutStrategy.Simple }
      = runTestWithTimeoutEnhanced body ctx l { strategy := TimeoutStrategy.Aggressive }
    ∧ (l < body.dur →
        (runTestWithTimeoutEnhanced body ctx l
            { strategy := TimeoutStrategy.Simple }).result
          = Except.error (TestError.Timeout l)
        ∧ (runTestWithTimeoutEnhanced body ctx l
            { strategy := TimeoutStrategy.Simple }).finished = false
        ∧ (runTestWithTimeoutEnhanced body ctx l
            { strategy := TimeoutStrategy.Simple }).elapsed = l)
    ∧ (body.dur ≤ l →
        (runTestWithTimeoutEnhanced body ctx l
            { strategy := TimeoutStrategy.Simple }).finished = true
        ∧ (runTestWithTimeoutEnhanced body ctx l
            { strategy := TimeoutStrategy.Simple }).elapsed = body.dur) := by
  refine ⟨rfl, fun h => ?_, fun h => ?_⟩
  · have hn : ¬body.dur ≤ l := Nat.not_le.mpr h
    simp [runTestWithTimeoutEnhanced, waitWindow, hn]
  · rcases hres : body.run [] with ⟨o, w⟩
    cases o <;> simp [runTestWithTimeoutEnhanced, waitWindow, hres, h]

/-- C5 witness: the amended statement evaluated at the concrete slow body
with limit 5. -/
theorem c5_witness :
    (runTestWithTimeoutEnhanced slowBody [] 5
        { strategy := TimeoutStrategy.Simple }).result
      = Except.error (TestError.Timeout 5)
    ∧ (runTestWithTimeoutEnhanced slowBody [] 5
        { strategy := TimeoutStrategy.Simple }).finished = false
    ∧ (runTestWithTimeoutEnhanced slowBody [] 5
        { strategy := TimeoutStrategy.Simple }).elapsed = 5 :=
  (c5_simple_strategy_amended slowBody [] 5).2.1 (by decide)

/-- C6: the engine does not use the strategy carried by the run
configuration.  With `timeout_config.strategy = Graceful(10)` configured, a
test with limit 5 whose body succeeds after 8 units is marked
`Failed(Timeout(5))` because `run_single_test_by_index` calls
`run_test_with_timeout`, which hard-codes `TimeoutConfig::default()`
(`Aggressive`); running the same body under the configured `Graceful(10)`
strategy would have returned success. -/
theorem c6_strategy_ignored :
    (runSingleTest c6Spec [] [] gracefulConfig []).case.status
      = TestStatus.Failed (TestError.Timeout 5)
    ∧ (runTestWithTimeoutEnhanced c6Body [] 5 gracefulConfig.timeout_config).result
      = Except.ok ()
    ∧ gracefulConfig.timeout_config.strategy = TimeoutStrategy.Graceful 10 :=
  ⟨rfl, rfl, rfl⟩

/-- C9 counterexample: the mock `start` path assigns host port
`10000 + port % 1000` deterministically, so two start calls overlapping on
auto port 443 both receive host port 10443 - the assignments are not
disjoint. -/
theorem c9_counterexample :
    mockAutoAssignments c9CfgA = [(10443, 443)]
    ∧ mockAutoAssignments c9CfgB = [(10443, 443), (10090, 9090)]
    ∧ ¬(∀ h1 h2 : Nat, (h1, 443) ∈ mockAutoAssignments c9CfgA →
        (h2, 443) ∈ mockAutoAssignments c9CfgB → h1 ≠ h2) :=
  ⟨rfl, rfl, fun h => h 10443 10443 (by decide) (by decide) rfl⟩

/-- C9 (amended): every auto-assigned mock host port equals
`10000 + container_port % 1000`, hence is strictly greater than 1023 and
appears in the returned port mappings; but the assignment is a function of
the container port alone, so any other start call whose auto-ports contain
the same container port receives the identical (not disjoint) host port. -/
theorem c9_auto_ports_amended (cfg : ContainerConfig) (p : Nat)
    (hp : p ∈ cfg.auto_ports) :
    (mockAutoHostPort p, p) ∈ mockStartPortMappings cfg
    ∧ 1023 < mockAutoHostPort p
    ∧ ∀ cfg2 : ContainerConfig, p ∈ cfg2.auto_ports →
        (mockAutoHostPort p, p) ∈ mockStartPortMappings cfg2 := by
  refine ⟨?_, ?_, fun cfg2 hp2 => ?_⟩
  · simp only [mockStartPortMappings, mockAutoAssignments, List.mem_append, List.mem_map]
    exact Or.inr ⟨p, hp, rfl⟩
  · unfold mockAutoHostPort
    omega
  · simp only [mockStartPortMappings, mockAutoAssignments, List.mem_append, List.mem_map]
    exact Or.inr ⟨p, hp2, rfl⟩

/-- C9 witness: the amended statement evaluated at container port 443 of
`c9CfgA`. -/
theorem c9_witness :
    (mockAutoHostPort 443, 443) ∈ mockStartPortMappings c9CfgA
    ∧ 1023 < mockAutoHostPort 443
    ∧ ∀ cfg2 : ContainerConfig, 443 ∈ cfg2.auto_ports →
        (mockAutoHostPort 443, 443) ∈ mockStartPortMappings cfg2 :=
  c9_auto_ports_amended c9CfgA 443 (by decide)


/-- C1 counterexample: with one registered test and a failing `before_all`
hook, `run_tests_with_config` returns 1 although zero tests ended in the
`Failed` state, refuting the claimed equivalence for aborted runs. -/
theorem c1_counterexample :
    (runTestsWithConfig id [okTestSpec "a"] [failingHook] [] [] [] emptyConfig).exitCode = 1
    ∧ countFailed
        (runTestsWithConfig id [okTestSpec "a"] [failingHook] [] [] [] emptyConfig).finalCases
      = 0 :=
  ⟨rfl, rfl⟩

/-- C1 (amended): provided the `before_all` phase does not fail, the exit
code is 0 exactly when zero registered tests ended in the `Failed` state
(and 1 otherwise); `Skipped` outcomes never enter the count.  When a
`before_all` hook fails, the run instead returns 1 with no test `Failed`. -/
theorem c1_exit_code_amended (hasher : Nat → Nat) (specs : List TestSpec)
    (ba be ae aa : List Hook) (config : TestConfig)
    (hpend : ∀ s ∈ specs, s.case.status = TestStatus.Pending)
    (hba : ∃ sharedCtx, beforeAllPhase ba config = Except.ok sharedCtx) :
    ((runTestsWithConfig hasher specs ba be ae aa config).exitCode = 0
      ↔ countFailed (runTestsWithConfig hasher specs ba be ae aa config).finalCases = 0) := by
  obtain ⟨sc, hba⟩ := hba
  have hzero : countFailed (specs.map TestSpec.case) = 0 := by
    apply countFailed_eq_zero
    intro t ht
    obtain ⟨s, hs, rfl⟩ := List.mem_map.mp ht
    exact hpend s hs
  unfold runTestsWithConfig
  cases hempty : specs.isEmpty with
  | true => simp [countFailed]
  | false =>
    simp only [Bool.false_eq_true, if_false, hba]
    cases hind :
        (filterAndSortTestIndices hasher (specs.map TestSpec.case) config).isEmpty with
    | true => simp [hind, hzero]
    | false =>
      simp only [hind, Bool.false_eq_true, if_false]
      by_cases hpos : 0 < countFailed
          ((dispatchSequential specs
            (filterAndSortTestIndices hasher (specs.map TestSpec.case) config)
            be ae config sc).map TestSpec.case)
      · rw [if_pos hpos]
        constructor
        · intro h1
          exact absurd h1 (by norm_num)
        · intro h0
          exact absurd h0 (by omega)
      · rw [if_neg hpos]
        constructor
        · intro _
          omega
        · intro _
          rfl

/-- C1 witness: the amended equivalence evaluated on a run with one passing
test and no hooks. -/
theorem c1_witness :
    ((runTestsWithConfig id [okTestSpec "a"] [] [] [] [] emptyConfig).exitCode = 0
      ↔ countFailed
          (runTestsWithConfig id [okTestSpec "a"] [] [] [] [] emptyConfig).finalCases = 0) :=
  c1_exit_code_amended id [okTestSpec "a"] [] [] [] [] emptyConfig
    (by intro s hs; rw [List.mem_singleton] at hs; subst hs; rfl)
    ⟨[], rfl⟩

/-- C3 counterexample: with a failing `before_all` hook and one registered
`after_all` hook, the run aborts with no test dispatched - but the
`after_all` hook is never invoked, refuting the claim that `after_all` still
runs before the run returns. -/
theorem c3_counterexample :
    (runTestsWithConfig id [okTestSpec "a"] [failingHook] [] [] [okHook]
        emptyConfig).afterAllInvoked = 0
    ∧ ([okHook] : List Hook).length = 1
    ∧ (runTestsWithConfig id [okTestSpec "a"] [failingHook] [] [] [okHook]
        emptyConfig).dispatched = 0
    ∧ (runTestsWithConfig id [okTestSpec "a"] [failingHook] [] [] [okHook]
        emptyConfig).exitCode = 1 :=
  ⟨rfl, rfl, rfl, rfl⟩

/-- C3 (amended): when a `before_all` hook fails on a run with at least one
registered test, the run aborts before dispatching any test and returns 1
immediately, without invoking any `after_all` hook; all test statuses are
left untouched. -/
theorem c3_before_all_abort_amended (hasher : Nat → Nat) (specs : List TestSpec)
    (ba be ae aa : List Hook) (config : TestConfig) (e : TestError)
    (hne : specs ≠ [])
    (hba : beforeAllPhase ba config = Except.error e) :
    (runTestsWithConfig hasher specs ba be ae aa config).exitCode = 1
    ∧ (runTestsWithConfig hasher specs ba be ae aa config).dispatched = 0
    ∧ (runTestsWithConfig hasher specs ba be ae aa config).afterAllInvoked = 0
    ∧ (runTestsWithConfig hasher specs ba be ae aa config).finalCases
        = specs.map TestSpec.case := by
  have hempty : specs.isEmpty = false := List.isEmpty_eq_false.mpr hne
  unfold runTestsWithConfig
  simp [hempty, hba]

/-- C3 witness: the amended statement evaluated on the concrete aborted
run. -/
theorem c3_witness :
    (runTestsWithConfig id [okTestSpec "b"] [failingHook] [] [] [okHook]
        emptyConfig).exitCode = 1
    ∧ (runTestsWithConfig id [okTestSpec "b"] [failingHook] [] [] [okHook]
        emptyConfig).dispatched = 0
    ∧ (runTestsWithConfig id [okTestSpec "b"] [failingHook] [] [] [okHook]
        emptyConfig).afterAllInvoked = 0
    ∧ (runTestsWithConfig id [okTestSpec "b"] [failingHook] [] [] [okHook]
        emptyConfig).finalCases = [okTestSpec "b"].map TestSpec.case :=
  c3_before_all_abort_amended id [okTestSpec "b"] [failingHook] [] [] [okHook]
    emptyConfig (TestError.Message "boom") (by simp) rfl

/-- C10 counterexample: with a failing `before_all` hook, a name filter that
excludes the only registered test, and an HTML path configured, the run
returns 1 - not 0 as claimed - although no `after_all` hook is invoked and no
report is generated. -/
theorem c10_counterexample :
    filteredIndices [(okTestSpec "a").case] zzzHtmlConfig = []
    ∧ (runTestsWithConfig id [okTestSpec "a"] [failingHook] [] [] []
        zzzHtmlConfig).exitCode = 1
    ∧ (runTestsWithConfig id [okTestSpec "a"] [failingHook] [] [] []
        zzzHtmlConfig).afterAllInvoked = 0
    ∧ (runTestsWithConfig id [okTestSpec "a"] [failingHook] [] [] []
        zzzHtmlConfig).htmlGenerated = false :=
  ⟨rfl, rfl, rfl, rfl⟩

/-- C10 (amended): if at least one test is registered, the `before_all`
phase succeeds, and the name filter and skip tags together exclude every
test, the run returns 0 immediately: nothing is dispatched, no `after_all`
hook is invoked, and no HTML report is generated even when a path is
configured. -/
theorem c10_all_filtered_amended (hasher : Nat → Nat) (specs : List TestSpec)
    (ba be ae aa : List Hook) (config : TestConfig)
    (hne : specs ≠ [])
    (hba : ∃ sharedCtx, beforeAllPhase ba config = Except.ok sharedCtx)
    (hfilt : filteredIndices (specs.map TestSpec.case) config = []) :
    (runTestsWithConfig hasher specs ba be ae aa config).exitCode = 0
    ∧ (runTestsWithConfig hasher specs ba be ae aa config).dispatched = 0
    ∧ (runTestsWithConfig hasher specs ba be ae aa config).afterAllInvoked = 0
    ∧ (runTestsWithConfig hasher specs ba be ae aa config).htmlGenerated = false := by
  obtain ⟨sc, hba⟩ := hba
  have hempty : specs.isEmpty = false := List.isEmpty_eq_false.mpr hne
  have hidx : filterAndSortTestIndices hasher (specs.map TestSpec.case) config = [] := by
    have hperm := filterAndSort_perm hasher (specs.map TestSpec.case) config
    rw [hfilt] at hperm
    exact hperm.eq_nil
  unfold runTestsWithConfig
  simp [hempty, hba, hidx]

/-- C10 witness: the amended statement evaluated on a run whose single test
fails the `zzz` name filter, with no hooks. -/
theorem c10_witness :
    (runTestsWithConfig id [okTestSpec "a"] [] [] [] [] zzzHtmlConfig).exitCode = 0
    ∧ (runTestsWithConfig id [okTestSpec "a"] [] [] [] [] zzzHtmlConfig).dispatched = 0
    ∧ (runTestsWithConfig id [okTestSpec "a"] [] [] [] [] zzzHtmlConfig).afterAllInvoked = 0
    ∧ (runTestsWithConfig id [okTestSpec "a"] [] [] [] [] zzzHtmlConfig).htmlGenerated = false :=
  c10_all_filtered_amended id [okTestSpec "a"] [] [] [] [] zzzHtmlConfig
    (by simp) ⟨[], rfl⟩ rfl

/-- C2 counterexample: a failing `before_each` hook marks the test
`Failed(Message "boom")` and skips the body, but the registered `after_each`
hook is never invoked - the engine returns at once instead of running the
after-phase. -/
theorem c2_counterexample :
    (runSingleTest (okTestSpec "t") [failingHook] [okHook] emptyConfig []).afterEachInvoked = 0
    ∧ ([okHook] : List Hook).length = 1
    ∧ (runSingleTest (okTestSpec "t") [failingHook] [okHook] emptyConfig []).case.status
        = TestStatus.Failed (TestError.Message "boom")
    ∧ (runSingleTest (okTestSpec "t") [failingHook] [okHook] emptyConfig []).bodyCtx = none :=
  ⟨rfl, rfl, rfl, rfl⟩

/-- C2 (amended): when some `before_each` hook fails (returned error or
captured panic), the test's outcome is `Failed` with that hook's failure
kind, the body and the remaining `before_each` hooks are not run - and no
`after_each` hook is executed: the engine returns immediately. -/
theorem c2_before_each_failure_amended (spec : TestSpec) (beH aeH : List Hook)
    (config : TestConfig) (gm : List (String × String)) (ran : List Nat) (e : TestError)
    (hskip : configSkipsHooks config = false)
    (hf : skippedByFilter config spec.case = false)
    (ht : skippedByTags config spec.case = false)
    (hbe : runBeforeEachHooks beH (initialTestCtx gm) 0 = (ran, Except.error e)) :
    (runSingleTest spec beH aeH config gm).case.status = TestStatus.Failed e
    ∧ (runSingleTest spec beH aeH config gm).bodyCtx = none
    ∧ (runSingleTest spec beH aeH config gm).afterEachInvoked = 0
    ∧ (runSingleTest spec beH aeH config gm).beforeEachRan = ran := by
  unfold runSingleTest
  simp [hf, ht, hskip, hbe]

/-- C2 witness: the amended statement evaluated on a single failing
`before_each` hook with one registered `after_each` hook. -/
theorem c2_witness :
    (runSingleTest (okTestSpec "w") [failingHook] [okHook] emptyConfig []).case.status
        = TestStatus.Failed (TestError.Message "boom")
    ∧ (runSingleTest (okTestSpec "w") [failingHook] [okHook] emptyConfig []).bodyCtx = none
    ∧ (runSingleTest (okTestSpec "w") [failingHook] [okHook] emptyConfig []).afterEachInvoked = 0
    ∧ (runSingleTest (okTestSpec "w") [failingHook] [okHook] emptyConfig []).beforeEachRan = [0] :=
  c2_before_each_failure_amended (okTestSpec "w") [failingHook] [okHook] emptyConfig [] [0]
    (TestError.Message "boom") rfl rfl rfl rfl

theorem bodyStartCtx_enhanced (body : BodySpec) (ctx : Ctx) (t : Duration)
    (cfg : TimeoutConfig) :
    (runTestWithTimeoutEnhanced body ctx t cfg).bodyStartCtx = [] := by
  unfold runTestWithTimeoutEnhanced
  rcases hres : body.run [] with ⟨o, w⟩
  by_cases hd : body.dur ≤ waitWindow cfg.strategy t <;> cases o <;> simp [hres, hd]

/-- C7 counterexample: after a `before_all` hook published `url = x` into the
shared context, a test carrying a time limit runs its body against a fresh
empty worker context - the shared entry is absent at the body's first
statement. -/
theorem c7_counterexample :
    beforeAllPhase [setUrlHook] emptyConfig = Except.ok [("url", "x")]
    ∧ (runSingleTest timedOkSpec [] [] emptyConfig [("url", "x")]).bodyCtx = some ([] : Ctx)
    ∧ ctxGet ([] : Ctx) "url" = none :=
  ⟨rfl, rfl, rfl⟩

/-- C7 (amended): the shared-map snapshot reaches the body only for tests
without a time limit: there (with no `before_each` hooks registered) the body
is invoked on the initial per-test context, which contains every shared
key/value; a test with a time limit instead has its body invoked on a fresh
empty context inside the worker thread. -/
theorem c7_snapshot_amended (spec : TestSpec) (aeH : List Hook) (config : TestConfig)
    (gm : List (String × String))
    (hf : skippedByFilter config spec.case = false)
    (ht : skippedByTags config spec.case = false)
    (hnd : (gm.map Prod.fst).Nodup) :
    (spec.case.timeout = none →
      (runSingleTest spec [] aeH config gm).bodyCtx = some (initialTestCtx gm)
      ∧ ∀ kv ∈ gm, ctxGet (initialTestCtx gm) kv.1 = some kv.2)
    ∧ (∀ l, spec.case.timeout = some l →
      (runSingleTest spec [] aeH config gm).bodyCtx = some ([] : Ctx)) := by
  constructor
  · intro hto
    refine ⟨?_, fun kv hkv => ctxGet_initialTestCtx gm hnd kv hkv⟩
    unfold runSingleTest
    rcases hres : runTest spec.body (initialTestCtx gm) with ⟨r, c⟩
    cases hsk : configSkipsHooks config <;> cases r <;>
      simp [hf, ht, hsk, hto, runBeforeEachHooks, hres]
  · intro l hto
    unfold runSingleTest
    cases hsk : configSkipsHooks config <;>
      cases htr : (runTestWithTimeoutEnhanced spec.body (initialTestCtx gm) l
        TimeoutConfig.defaultConfig).result <;>
      simp [hf, ht, hsk, hto, runBeforeEachHooks, runTestWithTimeout, htr,
        bodyStartCtx_enhanced]

/-- C7 witness: the amended statement for an untimed test with the shared
map holding `url = x`: the body context is the snapshot and it contains that
entry. -/
theorem c7_witness :
    (runSingleTest (okTestSpec "reads") [] [] emptyConfig [("url", "x")]).bodyCtx
        = some (initialTestCtx [("url", "x")])
    ∧ ∀ kv ∈ ([("url", "x")] : List (String × String)),
        ctxGet (initialTestCtx [("url", "x")]) kv.1 = some kv.2 :=
  (c7_snapshot_amended (okTestSpec "reads") [] emptyConfig [("url", "x")]
    rfl rfl (by simp)).1 rfl

/-- C4 counterexample: with `skip_tags = [slow]`, the registered test tagged
`slow` is removed from the index list and never dispatched: after the run its
status is still `Pending` - not `Skipped` - and the skipped total is 0, while
the other registered test ran to `Passed`. -/
theorem c4_counterexample :
    ((runTestsWithConfig id [slowTagSpec, okTestSpec "b"] [] [] [] []
        skipSlowConfig).finalCases.get? 0).map TestCase.status = some TestStatus.Pending
    ∧ countSkipped (runTestsWithConfig id [slowTagSpec, okTestSpec "b"] [] [] [] []
        skipSlowConfig).finalCases = 0
    ∧ ((runTestsWithConfig id [slowTagSpec, okTestSpec "b"] [] [] [] []
        skipSlowConfig).finalCases.get? 1).map TestCase.status = some TestStatus.Passed
    ∧ TestStatus.Pending ≠ TestStatus.Skipped :=
  ⟨rfl, rfl, rfl, by decide⟩

/-- C4 (amended): a registered test excluded by the name filter or by a skip
tag is removed from the index list before dispatch: its `TestCase` record -
in particular its `Pending` status - is left completely untouched by the run,
so it is never marked `Skipped` and contributes nothing to the skipped
total. -/
theorem c4_excluded_stays_pending_amended (hasher : Nat → Nat) (specs : List TestSpec)
    (ba be ae aa : List Hook) (config : TestConfig) (i : Nat)
    (hi : i < specs.length)
    (hexc : skippedByFilter config (specs.get ⟨i, hi⟩).case = true
        ∨ skippedByTags config (specs.get ⟨i, hi⟩).case = true) :
    ((runTestsWithConfig hasher specs ba be ae aa config).finalCases.get? i)
      = some (specs.get ⟨i, hi⟩).case := by
  have hi2 : i < (specs.map TestSpec.case).length := by simpa using hi
  have hcase : (specs.map TestSpec.case).get ⟨i, hi2⟩ = (specs.get ⟨i, hi⟩).case := by
    simp
  have hnm : i ∉ filterAndSortTestIndices hasher (specs.map TestSpec.case) config := by
    apply not_mem_filterAndSort hasher (specs.map TestSpec.case) config i hi2
    rw [hcase]
    exact hexc
  unfold runTestsWithConfig
  cases hempty : specs.isEmpty with
  | true =>
    rw [List.isEmpty_iff] at hempty
    subst hempty
    simp at hi
  | false =>
    simp only [Bool.false_eq_true, if_false]
    cases hba : beforeAllPhase ba config with
    | error e =>
      rw [List.get?_map, List.get?_eq_get hi]
      rfl
    | ok sc =>
      cases hind :
          (filterAndSortTestIndices hasher (specs.map TestSpec.case) config).isEmpty with
      | true =>
        simp only [hind, if_true]
        rw [List.get?_map, List.get?_eq_get hi]
        rfl
      | false =>
        simp only [hind, Bool.false_eq_true, if_false]
        rw [List.get?_map,
          dispatchSequential_get?_of_not_mem
            (filterAndSortTestIndices hasher (specs.map TestSpec.case) config)
            specs be ae config sc i hnm,
          List.get?_eq_get hi]
        rfl

/-- C4 witness: the amended statement for the `slow`-tagged test of the
concrete two-test run. -/
theorem c4_witness :
    ((runTestsWithConfig id [slowTagSpec, okTestSpec "b"] [] [] [] []
        skipSlowConfig).finalCases.get? 0) = some slowTagSpec.case :=
  c4_excluded_stays_pending_amended id [slowTagSpec, okTestSpec "b"] [] [] [] []
    skipSlowConfig 0 (by decide) (Or.inr (by decide))
